import Mathlib

/-
Shallow embedding of fxaa/codepipeline-status (src/src/main.rs).

The program is a one-shot terminal dashboard: it fetches the stage list of a
CodePipeline pipeline and paints one frame, a bordered panel per stage,
color-coded by the stage's latest execution status.

What is embedded from the source (src/src/main.rs):
  - the status -> border color decision table (lines 152-164),
  - the per-stage panel construction with its `stage_name.unwrap()` panic
    (lines 143-167), modelled as `Except.error`,
  - the inspection/log loop over stage states (lines 69-79),
  - the frame assembly: two vertical sections, the "Stages" section split
    horizontally one sub-rectangle per stage, the "Commits" section split with
    margin 0 into borderless placeholder cells (lines 86-186).

The geometric partitioner is the `tui` crate's `Layout::split`, whose code is
not part of this repository; it is modelled from the spec (section 4.1): margin
subtracted from all four sides with clamping to zero, then `count` equal-weight
spans of length floor(L*(k+1)/count) - floor(L*k/count) laid out contiguously.

Machine integers (u16 rectangle coordinates) are modelled as Nat; the spec's
partition formulas never overflow-wrap and Rust's `tui` computes them in
floating point, so no modular reduction is involved.
-/

namespace CodepipelineStatus

/-- Rectangle on the terminal surface: origin and size, as in `tui::layout::Rect`. -/
structure Rect where
  x : Nat
  y : Nat
  width : Nat
  height : Nat
  deriving DecidableEq, Repr

/-- Split direction of a layout, as in `tui::layout::Direction`. -/
inductive Direction where
  | horizontal
  | vertical
  deriving DecidableEq, Repr

/-- Modelled from the spec: the partitioner subtracts the margin uniformly from
all four sides before splitting; if `2*margin` exceeds a dimension the interior
dimension is clamped to zero (Nat subtraction truncates at zero). The
implementation (`tui`'s `Layout`/`Rect::inner`) is not part of this repository. -/
def Rect.inner (r : Rect) (margin : Nat) : Rect :=
  { x := r.x + margin
    y := r.y + margin
    width := r.width - 2 * margin
    height := r.height - 2 * margin }

/-- Modelled from the spec: `partition(area, direction, margin, count)` returns
`count` rectangles tiling the margined interior; span `k` along the split
direction runs from offset `floor(L*k/count)` to `floor(L*(k+1)/count)` of the
interior length `L`, and the orthogonal dimension is the full interior length.
The implementation (`tui`'s `Layout::split` with `Constraint::Ratio(1, count)`
for every region) is not part of this repository. -/
def partition (area : Rect) (dir : Direction) (margin count : Nat) : List Rect :=
  let i := area.inner margin
  match dir with
  | Direction.horizontal =>
      (List.range count).map (fun k =>
        { x := i.x + i.width * k / count
          y := i.y
          width := i.width * (k + 1) / count - i.width * k / count
          height := i.height })
  | Direction.vertical =>
      (List.range count).map (fun k =>
        { x := i.x
          y := i.y + i.height * k / count
          width := i.width
          height := i.height * (k + 1) / count - i.height * k / count })

/-- Length of a rectangle along a split direction. -/
def Rect.span (dir : Direction) (r : Rect) : Nat :=
  match dir with
  | Direction.horizontal => r.width
  | Direction.vertical => r.height

/-- Length of a rectangle along the axis orthogonal to a split direction. -/
def Rect.ortho (dir : Direction) (r : Rect) : Nat :=
  match dir with
  | Direction.horizontal => r.height
  | Direction.vertical => r.width

/-- Position of a rectangle along a split direction. -/
def Rect.pos (dir : Direction) (r : Rect) : Nat :=
  match dir with
  | Direction.horizontal => r.x
  | Direction.vertical => r.y

/-- List lookup with an all-zero default rectangle, for stating index facts. -/
def rectAt (rs : List Rect) (k : Nat) : Rect :=
  rs.getD k { x := 0, y := 0, width := 0, height := 0 }

/-- Terminal color, covering the variants the program uses
(`tui::style::Color`). -/
inductive Color where
  | rgb (r g b : Nat)
  | lightBlue
  | red
  | green
  | lightYellow
  deriving DecidableEq, Repr

/-- Border line style (`tui::widgets::BorderType`); `plain` is the default. -/
inductive BorderType where
  | plain
  | thick
  deriving DecidableEq, Repr

/-- Which borders a block draws; the program uses only `ALL` and `NONE`. -/
inductive Borders where
  | none
  | all
  deriving DecidableEq, Repr

/-- Styled title text (`tui::text::Span`): the program only ever sets the BOLD
modifier, so the style is modelled by that single flag. -/
structure Span where
  content : String
  bold : Bool
  deriving DecidableEq, Repr

/-- Visual attributes of one `tui::widgets::Block` as the program configures
them: optional title, which borders, border line style, border foreground
color. -/
structure Block where
  title : Option Span
  borders : Borders
  borderType : BorderType
  borderFg : Option Color
  deriving DecidableEq, Repr

/-- `Block::default()`: no title, no borders, plain border type, no border
color set. -/
def Block.base : Block :=
  { title := none, borders := Borders.none, borderType := BorderType.plain, borderFg := none }

/-- Latest execution of a stage (`rusoto_codepipeline::StageExecution`): an
execution id and a status code string. -/
structure StageExecution where
  pipelineExecutionId : String
  status : String
  deriving DecidableEq, Repr

/-- One stage record (`rusoto_codepipeline::StageState`). The renderer reads
only `stageName` and `latestExecution`; the action states and the inbound
transition state are carried as opaque payloads so that dependence on them can
be stated and refuted. -/
structure StageState where
  actionStates : Option (List String)
  inboundTransitionState : Option String
  latestExecution : Option StageExecution
  stageName : Option String
  deriving DecidableEq, Repr

/-- Status code -> color: the inner `match status.as_str()` of main.rs lines
155-160. -/
def statusColor (status : String) : Color :=
  match status with
  | "InProgress" => Color.lightBlue
  | "Failed" => Color.red
  | "Succeeded" => Color.green
  | _ => Color.lightYellow

/-- Optional execution -> border color: the outer match of main.rs lines
153-163; a missing execution defaults to red. -/
def stageColor : Option StageExecution → Color
  | some e => statusColor e.status
  | none => Color.red

/-- Per-stage panel block, main.rs lines 145-164: bold title from
`stage_name.unwrap()` (a missing name panics, modelled as `Except.error`),
thick border on all sides, border color from `stageColor`. -/
def stagePanelBlock (state : StageState) : Except String Block :=
  match state.stageName with
  | none => Except.error "called Option.unwrap() on a None value"
  | some name =>
      Except.ok
        { title := some { content := name, bold := true }
          borders := Borders.all
          borderType := BorderType.thick
          borderFg := some (stageColor state.latestExecution) }

/-- One draw command issued to the terminal: a block rendered into a target
rectangle (`f.render_widget(block, chunk)`). -/
structure DrawCommand where
  block : Block
  rect : Rect
  deriving DecidableEq, Repr

/-- Section titles of the frame, main.rs line 87. -/
def sectionTitles : List String := ["Stages", "Commits"]

/-- Section header block, main.rs lines 109-116: bold title, thick border on
all sides, fixed accent color Rgb(255, 178, 102) independent of any status. -/
def sectionBlock (title : String) : Block :=
  { title := some { content := title, bold := true }
    borders := Borders.all
    borderType := BorderType.thick
    borderFg := some (Color.rgb 255 178 102) }

/-- Top-level vertical split of the terminal into one rectangle per section
title, margin 1, equal ratios (main.rs lines 92-104). -/
def sectionRects (size : Rect) : List Rect :=
  partition size Direction.vertical 1 sectionTitles.length

/-- Draw commands for the section headers, in title order (main.rs lines
88-122). -/
def sectionCmds (size : Rect) : List DrawCommand :=
  (sectionTitles.zip (sectionRects size)).map
    (fun p => { block := sectionBlock p.1, rect := p.2 })

/-- Horizontal split of the "Stages" section, margin 1, one rectangle per
stage, equal ratios (main.rs lines 128-140). -/
def stageRects (stagesSection : Rect) (n : Nat) : List Rect :=
  partition stagesSection Direction.horizontal 1 n

/-- Per-stage draw commands, main.rs lines 124-167: each stage state is zipped
with its rectangle and rendered in list order; a missing stage name aborts the
pass at that stage (Rust panic on `unwrap`), modelled by `Except`. -/
def stageCmds (stageStates : List StageState) (stagesSection : Rect) :
    Except String (List DrawCommand) :=
  (stageStates.zip (stageRects stagesSection stageStates.length)).mapM
    (fun p => (stagePanelBlock p.1).map (fun b => { block := b, rect := p.2 }))

/-- Placeholder cells of the "Commits" section, main.rs lines 172-185: margin
0, one borderless default block per stage. -/
def commitCmds (stageStates : List StageState) (commitsSection : Rect) : List DrawCommand :=
  (stageStates.zip (partition commitsSection Direction.horizontal 0 stageStates.length)).map
    (fun p => { block := Block.base, rect := p.2 })

/-- The whole draw pass of `terminal.draw` (main.rs lines 86-186): section
headers first, then the stage panels into section 0, then the commit
placeholders into section 1. `sections.get(0/1).unwrap()` always succeeds
because the vertical split returns exactly two rectangles, so it is modelled by
a defaulted lookup. -/
def drawFrame (stageStates : List StageState) (size : Rect) :
    Except String (List DrawCommand) :=
  let sections := sectionRects size
  let stagesSection := rectAt sections 0
  let commitsSection := rectAt sections 1
  (stageCmds stageStates stagesSection).map
    (fun sc => sectionCmds size ++ sc ++ commitCmds stageStates commitsSection)

/-- One log event of the inspection loop. -/
inductive LogEvent where
  | info (msg : String)
  | error (msg : String)
  deriving DecidableEq, Repr

/-- Inspection/log pass over the fetched stage states, main.rs lines 69-79: a
stage with both an execution and a name is logged at info level; any other
shape (missing name or missing execution) is logged as an error. The loop only
logs; it filters nothing. -/
def inspectEvent (s : StageState) : LogEvent :=
  match s with
  | { latestExecution := some e, stageName := some n, .. } =>
      LogEvent.info ("Stage: " ++ n ++ " has status: " ++ e.status)
  | _ => LogEvent.error "Could not inspect stage"

/-- Modelled from the spec: the section 4.2 status to border color decision
table written literally as an ordered first-match-wins chain of conditions:
present and InProgress gives light blue, then present and Failed gives red,
then present and Succeeded gives green, then present with any other code gives
light yellow, and an absent status gives red. -/
def specColorTable : Option StageExecution → Color
  | some e =>
      if e.status = "InProgress" then Color.lightBlue
      else if e.status = "Failed" then Color.red
      else if e.status = "Succeeded" then Color.green
      else Color.lightYellow
  | none => Color.red

/-- Stage record with no name, no execution, and no other payload. -/
def namelessStage : StageState :=
  { actionStates := none
    inboundTransitionState := none
    latestExecution := none
    stageName := none }

/-- Stage "Build" with latest execution Succeeded, as in the spec's end-to-end
scenario. -/
def stageBuild : StageState :=
  { actionStates := none
    inboundTransitionState := none
    latestExecution := some { pipelineExecutionId := "exec-build", status := "Succeeded" }
    stageName := some "Build" }

/-- Stage "Test" with latest execution Failed. -/
def stageTest : StageState :=
  { actionStates := none
    inboundTransitionState := none
    latestExecution := some { pipelineExecutionId := "exec-test", status := "Failed" }
    stageName := some "Test" }

/-- Stage "Deploy" with no recorded execution. -/
def stageDeploy : StageState :=
  { actionStates := none
    inboundTransitionState := none
    latestExecution := none
    stageName := some "Deploy" }

theorem partition_length (area : Rect) (dir : Direction) (margin count : Nat) :
    (partition area dir margin count).length = count := by
  cases dir <;> simp [partition]

theorem sum_spans (L c : Nat) (n : Nat) :
    (((List.range n).map (fun k => L * (k + 1) / c - L * k / c)).sum) = L * n / c := by
  induction n with
  | zero => simp
  | succ m ih =>
    rw [List.range_succ, List.map_append, List.sum_append, ih]
    simp
    exact Nat.add_sub_cancel' (Nat.div_le_div_right (Nat.mul_le_mul (le_refl L) (Nat.le_succ m)))

theorem partition_map_span (area : Rect) (dir : Direction) (margin count : Nat) :
    (partition area dir margin count).map (Rect.span dir)
      = (List.range count).map
          (fun k => Rect.span dir (area.inner margin) * (k + 1) / count
                    - Rect.span dir (area.inner margin) * k / count) := by
  cases dir <;> simp only [partition, List.map_map] <;> rfl

theorem rectAt_partition_h (area : Rect) (margin count k : Nat) (hk : k < count) :
    rectAt (partition area Direction.horizontal margin count) k =
      { x := (area.inner margin).x + (area.inner margin).width * k / count
        y := (area.inner margin).y
        width := (area.inner margin).width * (k + 1) / count
                 - (area.inner margin).width * k / count
        height := (area.inner margin).height } := by
  simp [rectAt, partition, List.getD_eq_getElem?_getD, List.getElem?_map, List.getElem?_range hk]

theorem rectAt_partition_v (area : Rect) (margin count k : Nat) (hk : k < count) :
    rectAt (partition area Direction.vertical margin count) k =
      { x := (area.inner margin).x
        y := (area.inner margin).y + (area.inner margin).height * k / count
        width := (area.inner margin).width
        height := (area.inner margin).height * (k + 1) / count
                  - (area.inner margin).height * k / count } := by
  simp [rectAt, partition, List.getD_eq_getElem?_getD, List.getElem?_map, List.getElem?_range hk]

theorem rectAt_partition_pos (area : Rect) (dir : Direction) (margin count k : Nat)
    (hk : k < count) :
    Rect.pos dir (rectAt (partition area dir margin count) k)
      = Rect.pos dir (area.inner margin)
        + Rect.span dir (area.inner margin) * k / count := by
  cases dir
  · rw [rectAt_partition_h area margin count k hk]
    rfl
  · rw [rectAt_partition_v area margin count k hk]
    rfl

theorem rectAt_partition_span (area : Rect) (dir : Direction) (margin count k : Nat)
    (hk : k < count) :
    Rect.span dir (rectAt (partition area dir margin count) k)
      = Rect.span dir (area.inner margin) * (k + 1) / count
        - Rect.span dir (area.inner margin) * k / count := by
  cases dir
  · rw [rectAt_partition_h area margin count k hk]
    rfl
  · rw [rectAt_partition_v area margin count k hk]
    rfl

/-- C2: partitioning a rectangle in either direction with any margin and any
count at least one returns exactly count rectangles; their spans along the
split direction sum exactly to the margin-adjusted axis length; every
rectangle's orthogonal dimension is the full margin-adjusted other axis; the
first rectangle starts at the interior origin and each next rectangle starts
exactly where the previous one ends (no gaps, no overlaps, index order). -/
theorem partition_exact_tiling (area : Rect) (dir : Direction) (margin count : Nat)
    (hc : 1 ≤ count) :
    (partition area dir margin count).length = count ∧
    ((partition area dir margin count).map (Rect.span dir)).sum
      = Rect.span dir (area.inner margin) ∧
    (∀ r ∈ partition area dir margin count,
        Rect.ortho dir r = Rect.ortho dir (area.inner margin)) ∧
    Rect.pos dir (rectAt (partition area dir margin count) 0)
      = Rect.pos dir (area.inner margin) ∧
    (∀ k, k + 1 < count →
      Rect.pos dir (rectAt (partition area dir margin count) (k + 1))
        = Rect.pos dir (rectAt (partition area dir margin count) k)
          + Rect.span dir (rectAt (partition area dir margin count) k)) := by
  refine ⟨partition_length area dir margin count, ?_, ?_, ?_, ?_⟩
  · rw [partition_map_span, sum_spans]
    exact Nat.mul_div_cancel _ hc
  · intro r hr
    cases dir <;> simp [partition] at hr <;> obtain ⟨k, hk, rfl⟩ := hr <;> rfl
  · rw [rectAt_partition_pos area dir margin count 0 hc]
    simp
  · intro k hk
    have hk1 : k < count := Nat.lt_of_succ_lt hk
    rw [rectAt_partition_pos area dir margin count (k + 1) hk,
        rectAt_partition_pos area dir margin count k hk1,
        rectAt_partition_span area dir margin count k hk1]
    have hmono : Rect.span dir (area.inner margin) * k / count
        ≤ Rect.span dir (area.inner margin) * (k + 1) / count :=
      Nat.div_le_div_right (Nat.mul_le_mul (le_refl _) (Nat.le_succ k))
    omega

theorem partition_exact_tiling_witness :
    (1 ≤ 3) ∧
    ((partition { x := 0, y := 0, width := 120, height := 40 } Direction.horizontal 1 3).map
        (Rect.span Direction.horizontal)).sum
      = Rect.span Direction.horizontal
          (Rect.inner { x := 0, y := 0, width := 120, height := 40 } 1) :=
  ⟨by decide,
   (partition_exact_tiling { x := 0, y := 0, width := 120, height := 40 }
      Direction.horizontal 1 3 (by decide)).2.1⟩

/-- C4: for the margin-adjusted length L along the split direction, any count
at least one, and any span index k below count, the k-th span produced by the
partitioner has length floor(L*(k+1)/count) - floor(L*k/count), and the spans
sum to L exactly (no rounding drift). -/
theorem partition_span_formula (area : Rect) (dir : Direction) (margin count k : Nat)
    (hc : 1 ≤ count) (hk : k < count) :
    Rect.span dir (rectAt (partition area dir margin count) k)
      = Rect.span dir (area.inner margin) * (k + 1) / count
        - Rect.span dir (area.inner margin) * k / count ∧
    ((partition area dir margin count).map (Rect.span dir)).sum
      = Rect.span dir (area.inner margin) := by
  refine ⟨rectAt_partition_span area dir margin count k hk, ?_⟩
  rw [partition_map_span, sum_spans]
  exact Nat.mul_div_cancel _ hc

theorem partition_span_formula_witness :
    (1 ≤ 3 ∧ 1 < 3) ∧
    Rect.span Direction.horizontal
        (rectAt (partition { x := 1, y := 1, width := 118, height := 19 }
            Direction.horizontal 1 3) 1)
      = Rect.span Direction.horizontal
          (Rect.inner { x := 1, y := 1, width := 118, height := 19 } 1) * (1 + 1) / 3
        - Rect.span Direction.horizontal
            (Rect.inner { x := 1, y := 1, width := 118, height := 19 } 1) * 1 / 3 :=
  ⟨⟨by decide, by decide⟩,
   (partition_span_formula { x := 1, y := 1, width := 118, height := 19 }
      Direction.horizontal 1 3 1 (by decide) (by decide)).1⟩

/-- C5: when twice the margin reaches or exceeds the rectangle's width (or
height), the margin-adjusted interior has that dimension clamped to zero, and
every rectangle the partitioner returns has that dimension zero as well: a
degenerate but valid output, never a negative size (all sizes are Nat, and the
partition function is total, so no crash is possible). -/
theorem partition_margin_clamped (area : Rect) (dir : Direction) (margin count : Nat) :
    (area.width ≤ 2 * margin →
      (area.inner margin).width = 0 ∧
      ∀ r ∈ partition area dir margin count, r.width = 0) ∧
    (area.height ≤ 2 * margin →
      (area.inner margin).height = 0 ∧
      ∀ r ∈ partition area dir margin count, r.height = 0) := by
  have hw : area.width ≤ 2 * margin → (area.inner margin).width = 0 := by
    intro h
    simp [Rect.inner, Nat.sub_eq_zero_of_le h]
  have hh : area.height ≤ 2 * margin → (area.inner margin).height = 0 := by
    intro h
    simp [Rect.inner, Nat.sub_eq_zero_of_le h]
  constructor
  · intro h
    refine ⟨hw h, ?_⟩
    intro r hr
    cases dir <;> simp [partition] at hr <;> obtain ⟨kk, hkk, rfl⟩ := hr <;>
      simp [hw h]
  · intro h
    refine ⟨hh h, ?_⟩
    intro r hr
    cases dir <;> simp [partition] at hr <;> obtain ⟨kk, hkk, rfl⟩ := hr <;>
      simp [hh h]

theorem partition_margin_clamped_witness :
    (3 ≤ 2 * 2) ∧
    (Rect.inner { x := 0, y := 0, width := 3, height := 10 } 2).width = 0 :=
  ⟨by decide,
   ((partition_margin_clamped { x := 0, y := 0, width := 3, height := 10 }
       Direction.horizontal 2 4).1 (by decide)).1⟩

/-- C6 counterexample: with an empty stage list (hence a requested region
count of zero) and a 120 by 40 surface, the whole render pass completes
successfully (no loud failure, no aborted frame) and the stage pass issues
zero stage panel draw commands: the frame silently renders with no stage
panels, contrary to the claim. -/
theorem zero_count_renders_silently_on_120x40 :
    (drawFrame [] { x := 0, y := 0, width := 120, height := 40 }).isOk = true ∧
    stageCmds []
        (rectAt (sectionRects { x := 0, y := 0, width := 120, height := 40 }) 0)
      = Except.ok [] := by
  constructor
  · rfl
  · rfl

/-- C6 amended: requesting the partition with region count zero is not
detected by the code: for every surface size, rendering an empty stage list
completes successfully, the stage pass issues no stage panel draw commands,
and the frame consists of the two section header commands alone. -/
theorem empty_stage_list_renders_silently (size : Rect) :
    stageCmds [] (rectAt (sectionRects size) 0) = Except.ok [] ∧
    drawFrame [] size = Except.ok (sectionCmds size) := by
  constructor
  · rfl
  · have h : drawFrame [] size = Except.ok (sectionCmds size ++ [] ++ []) := rfl
    rw [h, List.append_nil, List.append_nil]


theorem statusColor_eq_chain (s : String) :
    statusColor s
      = if s = "InProgress" then Color.lightBlue
        else if s = "Failed" then Color.red
        else if s = "Succeeded" then Color.green
        else Color.lightYellow := by
  unfold statusColor
  split
  · simp
  · simp
  · simp
  next h1 h2 h3 =>
    rw [if_neg h1, if_neg h2, if_neg h3]

/-- C1: the border color of every stage panel agrees, on every optional
execution status, with the spec's decision table evaluated in order with first
match winning. -/
theorem border_color_decision_table (st : Option StageExecution) :
    stageColor st = specColorTable st := by
  cases st with
  | none => rfl
  | some e =>
    show statusColor e.status = _
    rw [statusColor_eq_chain]
    rfl


/-- C3 counterexample: a stage whose name is missing is logged as an error by
the inspection loop, but it is not filtered out: the per-stage draw pass is
still reached for it and aborts with the unwrap panic, contrary to the claim
that the draw pass is only reached for stages that have a name. -/
theorem nameless_stage_reaches_draw_pass :
    inspectEvent namelessStage = LogEvent.error "Could not inspect stage" ∧
    stageCmds [namelessStage] { x := 1, y := 1, width := 118, height := 19 }
      = Except.error "called Option.unwrap() on a None value" := by
  exact ⟨rfl, rfl⟩

theorem inspectEvent_of_no_name (s : StageState) (h : s.stageName = none) :
    inspectEvent s = LogEvent.error "Could not inspect stage" := by
  obtain ⟨a, i, le, sn⟩ := s
  simp only [StageState.stageName] at h
  subst h
  cases le <;> rfl

theorem mapM_error_of_mem {α β : Type} (f : α → Except String β) (l : List α)
    (h : ∃ a ∈ l, ∃ e, f a = Except.error e) :
    ∃ e, l.mapM f = Except.error e := by
  induction l with
  | nil => simp at h
  | cons a t ih =>
    rw [List.mapM_cons]
    obtain ⟨b, hb, e, he⟩ := h
    rcases List.mem_cons.mp hb with hba | hbt
    · subst hba
      exact ⟨e, by rw [he]; rfl⟩
    · cases hfa : f a with
      | error e2 => exact ⟨e2, rfl⟩
      | ok v =>
        obtain ⟨e3, h3⟩ := ih ⟨b, hbt, e, he⟩
        refine ⟨e3, ?_⟩
        show (List.mapM f t >>= fun xs => pure (v :: xs) : Except String (List β))
          = Except.error e3
        rw [h3]
        rfl

/-- C3 amended: a stage record with an absent name is logged as an error event
by the inspection pass, but the caller does not filter it out: the per-stage
draw pass is reached for every stage, and whenever some stage in the list has
a missing name the stage pass aborts with an unwrap panic (modelled as an
error) instead of rendering the frame. -/
theorem missing_name_aborts_stage_pass (stages : List StageState) (sect : Rect)
    (h : ∃ s ∈ stages, s.stageName = none) :
    (∀ s ∈ stages, s.stageName = none →
        inspectEvent s = LogEvent.error "Could not inspect stage") ∧
    ∃ e, stageCmds stages sect = Except.error e := by
  refine ⟨fun s _ hs => inspectEvent_of_no_name s hs, ?_⟩
  obtain ⟨s, hs, hname⟩ := h
  apply mapM_error_of_mem
  obtain ⟨j, hj, hget⟩ := List.mem_iff_getElem.mp hs
  have hlen : (stageRects sect stages.length).length = stages.length :=
    partition_length sect Direction.horizontal 1 stages.length
  have hjz : j < (stages.zip (stageRects sect stages.length)).length := by
    rw [List.length_zip, hlen]
    omega
  refine ⟨(stages.zip (stageRects sect stages.length)).get ⟨j, hjz⟩,
    List.get_mem _ _ _, ?_⟩
  have hz : (stages.zip (stageRects sect stages.length)).get ⟨j, hjz⟩
      = (stages[j], (stageRects sect stages.length)[j]) := by
    simp [List.getElem_zip]
  rw [hz]
  refine ⟨"called Option.unwrap() on a None value", ?_⟩
  have hsn : (stages[j] : StageState).stageName = none := by
    rw [hget]
    exact hname
  simp only [stagePanelBlock, hsn]
  rfl

theorem missing_name_aborts_stage_pass_witness :
    (∃ s ∈ [namelessStage], s.stageName = none) ∧
    ∃ e, stageCmds [namelessStage] { x := 0, y := 0, width := 10, height := 10 }
      = Except.error e :=
  ⟨⟨namelessStage, List.mem_singleton.mpr rfl, rfl⟩,
   (missing_name_aborts_stage_pass [namelessStage]
      { x := 0, y := 0, width := 10, height := 10 }
      ⟨namelessStage, List.mem_singleton.mpr rfl, rfl⟩).2⟩

theorem mapM_ok_of_forall {α β : Type} (f : α → Except String β) (g : α → β) (l : List α)
    (h : ∀ a ∈ l, f a = Except.ok (g a)) : l.mapM f = Except.ok (l.map g) := by
  induction l with
  | nil => rfl
  | cons a t ih =>
    rw [List.mapM_cons, h a (List.mem_cons_self a t),
        ih (fun b hb => h b (List.mem_cons_of_mem a hb))]
    rfl

theorem rectAt_of_lt (l : List Rect) (k : Nat) (hk : k < l.length) :
    rectAt l k = l[k] := by
  simp [rectAt, List.getD_eq_getElem?_getD, List.getElem?_eq_getElem hk]

/-- C7: when every stage has a name, the stage pass succeeds and issues one
draw command per stage in exactly the stage list's order: the k-th command
carries the k-th stage's name and status color and targets the k-th rectangle
of the horizontal partition of the Stages section, and that k-th rectangle is
the k-th region left to right (its x offset grows with k as
floor(L*k/count)). -/
theorem stage_draw_order (stages : List StageState) (sect : Rect)
    (h : ∀ s ∈ stages, s.stageName.isSome) :
    ∃ cmds, stageCmds stages sect = Except.ok cmds ∧
      cmds.length = stages.length ∧
      (∀ k, (hk : k < stages.length) →
        cmds[k]? = some
          { block :=
              { title := some { content := (stages.get ⟨k, hk⟩).stageName.getD ""
                                bold := true }
                borders := Borders.all
                borderType := BorderType.thick
                borderFg := some (stageColor (stages.get ⟨k, hk⟩).latestExecution) }
            rect := rectAt (stageRects sect stages.length) k }) ∧
      (∀ k, k < stages.length →
        rectAt (stageRects sect stages.length) k =
          { x := (sect.inner 1).x + (sect.inner 1).width * k / stages.length
            y := (sect.inner 1).y
            width := (sect.inner 1).width * (k + 1) / stages.length
                     - (sect.inner 1).width * k / stages.length
            height := (sect.inner 1).height }) := by
  have hlen : (stageRects sect stages.length).length = stages.length :=
    partition_length sect Direction.horizontal 1 stages.length
  refine ⟨(stages.zip (stageRects sect stages.length)).map
      (fun p =>
        { block :=
            { title := some { content := p.1.stageName.getD "", bold := true }
              borders := Borders.all
              borderType := BorderType.thick
              borderFg := some (stageColor p.1.latestExecution) }
          rect := p.2 }), ?_, ?_, ?_, ?_⟩
  · apply mapM_ok_of_forall
    intro p hp
    have hps : p.1 ∈ stages := (List.of_mem_zip hp).1
    have hsome := h p.1 hps
    cases hsn : p.1.stageName with
    | none => rw [hsn] at hsome; simp at hsome
    | some n =>
      simp only [stagePanelBlock, hsn]
      rfl
  · rw [List.length_map, List.length_zip, hlen]
    exact Nat.min_self _
  · intro k hk
    have hkz : k < (stages.zip (stageRects sect stages.length)).length := by
      rw [List.length_zip, hlen]
      omega
    have hkm : k < ((stages.zip (stageRects sect stages.length)).map
        (fun p =>
          { block :=
              { title := some { content := p.1.stageName.getD "", bold := true }
                borders := Borders.all
                borderType := BorderType.thick
                borderFg := some (stageColor p.1.latestExecution) }
            rect := p.2 } : StageState × Rect → DrawCommand)).length := by
      rw [List.length_map]
      exact hkz
    rw [List.getElem?_eq_getElem hkm]
    have hkc : k < (stageRects sect stages.length).length := by omega
    simp only [List.getElem_map, List.getElem_zip]
    rw [rectAt_of_lt _ k hkc]
    rfl
  · intro k hk
    rw [show stageRects sect stages.length
        = partition sect Direction.horizontal 1 stages.length from rfl,
      rectAt_partition_h sect 1 stages.length k hk]

theorem stage_draw_order_witness :
    (∀ s ∈ [({ actionStates := none
               inboundTransitionState := none
               latestExecution := none
               stageName := some "Deploy" } : StageState)], s.stageName.isSome) ∧
    ∃ cmds, stageCmds
        [{ actionStates := none
           inboundTransitionState := none
           latestExecution := none
           stageName := some "Deploy" }]
        { x := 1, y := 1, width := 118, height := 19 } = Except.ok cmds :=
  ⟨by decide,
   (stage_draw_order
      [{ actionStates := none
         inboundTransitionState := none
         latestExecution := none
         stageName := some "Deploy" }]
      { x := 1, y := 1, width := 118, height := 19 } (by decide)).imp
     (fun c hc => hc.1)⟩

/-- C9: the panel renderer is a pure function of its inputs: rendering the
same stage record twice yields the same panel block (same title, same border
style, same border color), and the same holds for the color mapping alone;
there is no hidden mutable state in the model because the source closure reads
only its immutable captures. -/
theorem render_panel_idempotent (state : StageState) :
    stagePanelBlock state = stagePanelBlock state ∧
    stageColor state.latestExecution = stageColor state.latestExecution :=
  ⟨rfl, rfl⟩

theorem stageColor_congr (o1 o2 : Option StageExecution)
    (h : o1.map StageExecution.status = o2.map StageExecution.status) :
    stageColor o1 = stageColor o2 := by
  cases o1 with
  | none =>
    cases o2 with
    | none => rfl
    | some e2 => simp at h
  | some e1 =>
    cases o2 with
    | none => simp at h
    | some e2 =>
      simp only [Option.map_some', Option.some.injEq] at h
      show statusColor e1.status = statusColor e2.status
      rw [h]

/-- C10: the stage panel block depends only on the stage's name and on the
status string of its optional latest execution: two stage records that agree
on those two projections produce identical blocks, whatever their action
states, inbound transition state, or execution id, and independently of any
other stage in the list. -/
theorem panel_depends_only_on_name_and_status (s1 s2 : StageState)
    (hn : s1.stageName = s2.stageName)
    (hs : s1.latestExecution.map StageExecution.status
          = s2.latestExecution.map StageExecution.status) :
    stagePanelBlock s1 = stagePanelBlock s2 := by
  have hc : stageColor s1.latestExecution = stageColor s2.latestExecution :=
    stageColor_congr _ _ hs
  simp only [stagePanelBlock, hn, hc]

theorem panel_depends_only_on_name_and_status_witness :
    stagePanelBlock
        { actionStates := some ["a1", "a2"]
          inboundTransitionState := some "enabled"
          latestExecution := some { pipelineExecutionId := "exec-1", status := "Succeeded" }
          stageName := some "Build" }
      = stagePanelBlock
          { actionStates := none
            inboundTransitionState := none
            latestExecution := some { pipelineExecutionId := "exec-2", status := "Succeeded" }
            stageName := some "Build" } :=
  panel_depends_only_on_name_and_status _ _ rfl rfl




/-- C8: on a 120 by 40 surface with stages Build(Succeeded), Test(Failed),
Deploy(no execution), the frame splits into two 19-row sections at margin 1,
splits the Stages section into three sub-rectangles of widths 38, 39, 39
(about 40 columns each, minus margins), and issues, after the two section
headers, exactly three stage panel commands in order Build (green border),
Test (red border), Deploy (red border), each with its bold stage name as
title, followed by the three borderless Commits placeholders. -/
theorem end_to_end_120x40 :
    sectionRects { x := 0, y := 0, width := 120, height := 40 }
      = [{ x := 1, y := 1, width := 118, height := 19 },
         { x := 1, y := 20, width := 118, height := 19 }] ∧
    drawFrame [stageBuild, stageTest, stageDeploy]
        { x := 0, y := 0, width := 120, height := 40 }
      = Except.ok
          [{ block := sectionBlock "Stages"
             rect := { x := 1, y := 1, width := 118, height := 19 } },
           { block := sectionBlock "Commits"
             rect := { x := 1, y := 20, width := 118, height := 19 } },
           { block := { title := some { content := "Build", bold := true }
                        borders := Borders.all
                        borderType := BorderType.thick
                        borderFg := some Color.green }
             rect := { x := 2, y := 2, width := 38, height := 17 } },
           { block := { title := some { content := "Test", bold := true }
                        borders := Borders.all
                        borderType := BorderType.thick
                        borderFg := some Color.red }
             rect := { x := 40, y := 2, width := 39, height := 17 } },
           { block := { title := some { content := "Deploy", bold := true }
                        borders := Borders.all
                        borderType := BorderType.thick
                        borderFg := some Color.red }
             rect := { x := 79, y := 2, width := 39, height := 17 } },
           { block := Block.base
             rect := { x := 1, y := 20, width := 39, height := 19 } },
           { block := Block.base
             rect := { x := 40, y := 20, width := 39, height := 19 } },
           { block := Block.base
             rect := { x := 79, y := 20, width := 40, height := 19 } }] := by
  exact ⟨by decide, rfl⟩

end CodepipelineStatus
